import Mathlib

/-
  Shallow embedding of the sandboxed evaluation core of the
  RL-Eval-Leaderboard repository and proofs about it.

  Embedded source files:
  - app/core/docker.py : parse_evaluation_output, run_evaluation_container
  - app/services/evaluation.py : the success classification of a run
  - app/api/submissions.py : the multi-file staging validation

  Python strings are modelled as List Char.  The external sandbox backend
  (docker SDK calls) and the artifact source are modelled by an oracle that
  fixes the outcome of every effectful call; the embedding threads a trace
  of the calls that were issued.  The stdlib json.loads is modelled both
  abstractly (theorems quantify over an arbitrary loader) and by a concrete
  executable parser jsonLoads covering the JSON fragment the tests need.
-/

/-! ### Python string helpers (str.strip, str.splitlines, slicing, rfind) -/

/-- Characters treated as whitespace by the Python str.strip default set
    (ASCII portion). -/
def isPySpace (c : Char) : Bool :=
  c = ' ' || c = '\t' || c = '\n' || c = '\r' || c = '\x0b' || c = '\x0c'

/-- Python str.strip with the default whitespace set. -/
def pyStrip (s : List Char) : List Char :=
  ((s.dropWhile isPySpace).reverse.dropWhile isPySpace).reverse

/-- Line-break characters recognised by the model of str.splitlines. -/
def isLineBreak (c : Char) : Bool := c = '\n' || c = '\r'

/-- Accumulator worker for splitlines: cur holds the current line reversed. -/
def splitlinesAux : List Char → List Char → List (List Char)
  | cur, [] => if cur.isEmpty then [] else [cur.reverse]
  | cur, '\r' :: '\n' :: rest => cur.reverse :: splitlinesAux [] rest
  | cur, '\r' :: rest => cur.reverse :: splitlinesAux [] rest
  | cur, '\n' :: rest => cur.reverse :: splitlinesAux [] rest
  | cur, c :: rest => splitlinesAux (c :: cur) rest

/-- Model of Python str.splitlines restricted to the usual line breaks
    (LF, CR, CRLF): no trailing empty line is produced for a trailing
    terminator, and an empty string gives no lines. -/
def splitlines (s : List Char) : List (List Char) := splitlinesAux [] s

/-- The stripped, non-blank lines of the raw logs, in stream order: the
    embedding of the list comprehension at docker.py line 19. -/
def pyLines (logs : List Char) : List (List Char) :=
  ((splitlines logs).map pyStrip).filter (fun l => !l.isEmpty)

/-- Does the list start with the given character (str.startswith on one char). -/
def headIs (c : Char) (l : List Char) : Bool :=
  match l with
  | [] => false
  | x :: _ => x = c

/-- Does the list end with the given character (str.endswith on one char). -/
def lastIs (c : Char) (l : List Char) : Bool := headIs c l.reverse

/-- Python str.rfind on a single character, as an optional index: the
    index of the last occurrence, none when absent (Python returns -1). -/
def rfindIdx (c : Char) : List Char → Option Nat
  | [] => none
  | x :: xs =>
    match rfindIdx c xs with
    | some i => some (i + 1)
    | none => if x = c then some 0 else none

/-- The inclusive slice s[a : b+1] of Python. -/
def sliceIncl (s : List Char) (a b : Nat) : List Char := (s.drop a).take (b - a + 1)

/-- The Python suffix slice s[-n:] (whole string when shorter than n). -/
def lastN (n : Nat) (s : List Char) : List Char := s.drop (s.length - n)

/-! ### JSON values -/

/-- A parsed JSON value; numbers are restricted to integers, which covers
    every record the claims exercise. -/
inductive Json where
  | null
  | bool (b : Bool)
  | num (n : Int)
  | str (s : List Char)
  | arr (elems : List Json)
  | obj (members : List (List Char × Json))

/-- Lookup of a key in an object member list (first binding wins). -/
def assocGet (key : List Char) : List (List Char × Json) → Option Json
  | [] => none
  | (k, v) :: rest => if k = key then some v else assocGet key rest

/-- Is the value a JSON number. -/
def jsonIsNum : Json → Bool
  | .num _ => true
  | _ => false

/-- Python falsiness of a decoded JSON value (None, False, 0, empty
    string, empty list, empty dict). -/
def jsonFalsy : Json → Bool
  | .null => true
  | .bool b => !b
  | .num n => n = 0
  | .str s => s.isEmpty
  | .arr es => es.isEmpty
  | .obj ms => ms.isEmpty

/-! ### A concrete model of json.loads

A total recursive-descent parser over a practical JSON fragment: null,
booleans, integer numbers, escape-free strings, arrays and objects, with
the usual inter-token whitespace, and trailing garbage rejected, the way
json.loads rejects it.  Structural recursion is on a fuel counter. -/

/-- JSON inter-token whitespace. -/
def jsonWs (c : Char) : Bool := c = ' ' || c = '\t' || c = '\n' || c = '\r'

/-- Drop leading JSON whitespace. -/
def skipJWs (s : List Char) : List Char := s.dropWhile jsonWs

/-- ASCII digit test. -/
def isDigitC (c : Char) : Bool := '0' ≤ c && c ≤ '9'

/-- Split a leading run of digits from the rest. -/
def takeDigits : List Char → List Char × List Char
  | [] => ([], [])
  | c :: cs =>
    if isDigitC c then
      let (ds, r) := takeDigits cs
      (c :: ds, r)
    else ([], c :: cs)

/-- Numeric value of a digit run. -/
def digitsVal (ds : List Char) : Nat :=
  ds.foldl (fun a c => a * 10 + (c.toNat - 48)) 0

/-- Parse the body of a JSON string after the opening quote; escapes are
    rejected (none of the embedded tests need them). -/
def parseJStr (acc : List Char) : List Char → Option (List Char × List Char)
  | [] => none
  | '"' :: rest => some (acc.reverse, rest)
  | '\\' :: _ => none
  | c :: rest => parseJStr (c :: acc) rest

/-- Parse an integer JSON number (floats and exponents are rejected). -/
def parseJNum (cs : List Char) : Option (Json × List Char) :=
  let (neg, cs1) := match cs with
    | '-' :: r => (true, r)
    | _ => (false, cs)
  match takeDigits cs1 with
  | ([], _) => none
  | (ds, rest) =>
    match rest with
    | '.' :: _ => none
    | 'e' :: _ => none
    | 'E' :: _ => none
    | _ => some (.num ((if neg then -1 else 1) * (digitsVal ds : Int)), rest)

mutual

/-- Parse one JSON value, returning it with the unconsumed remainder. -/
def parseJVal : Nat → List Char → Option (Json × List Char)
  | 0, _ => none
  | fuel + 1, cs =>
    match skipJWs cs with
    | 'n' :: 'u' :: 'l' :: 'l' :: r => some (.null, r)
    | 't' :: 'r' :: 'u' :: 'e' :: r => some (.bool true, r)
    | 'f' :: 'a' :: 'l' :: 's' :: 'e' :: r => some (.bool false, r)
    | '"' :: r =>
      match parseJStr [] r with
      | some (s, r1) => some (.str s, r1)
      | none => none
    | '[' :: r =>
      match skipJWs r with
      | ']' :: r1 => some (.arr [], r1)
      | r1 =>
        match parseJElems fuel r1 with
        | some (es, r2) => some (.arr es, r2)
        | none => none
    | '\x7b' :: r =>
      match skipJWs r with
      | '\x7d' :: r1 => some (.obj [], r1)
      | r1 =>
        match parseJMembers fuel r1 with
        | some (ms, r2) => some (.obj ms, r2)
        | none => none
    | c :: r => if c = '-' || isDigitC c then parseJNum (c :: r) else none
    | [] => none

/-- Parse one or more comma-separated array elements up to the closing
    bracket. -/
def parseJElems : Nat → List Char → Option (List Json × List Char)
  | 0, _ => none
  | fuel + 1, cs =>
    match parseJVal fuel cs with
    | none => none
    | some (v, r) =>
      match skipJWs r with
      | ',' :: r1 =>
        match parseJElems fuel r1 with
        | some (vs, r2) => some (v :: vs, r2)
        | none => none
      | ']' :: r1 => some ([v], r1)
      | _ => none

/-- Parse one or more comma-separated object members up to the closing
    brace. -/
def parseJMembers : Nat → List Char → Option (List (List Char × Json) × List Char)
  | 0, _ => none
  | fuel + 1, cs =>
    match skipJWs cs with
    | '"' :: r =>
      match parseJStr [] r with
      | none => none
      | some (k, r1) =>
        match skipJWs r1 with
        | ':' :: r2 =>
          match parseJVal fuel r2 with
          | none => none
          | some (v, r3) =>
            match skipJWs r3 with
            | ',' :: r4 =>
              match parseJMembers fuel r4 with
              | some (ms, r5) => some ((k, v) :: ms, r5)
              | none => none
            | '\x7d' :: r4 => some ([(k, v)], r4)
            | _ => none
        | _ => none
    | _ => none

end

/-- Concrete model of json.loads on the supported fragment: a full parse
    of the input with only whitespace left over. -/
def jsonLoads (s : List Char) : Option Json :=
  match parseJVal (s.length + 2) s with
  | some (j, rest) => if (skipJWs rest).isEmpty then some j else none
  | none => none

/-! ### The result extractor (docker.py, parse_evaluation_output) -/

/-- Key used for error messages in failure records. -/
def errKey : List Char := "error".toList

/-- Key used for the diagnostic tail in the no-JSON failure record. -/
def rawKey : List Char := "raw_output".toList

/-- Key of the score field. -/
def scoreKey : List Char := "score".toList

/-- Failure record for empty or whitespace-only logs (docker.py line 21). -/
def noOutputRecord : Json := .obj [(errKey, .str "No output received".toList)]

/-- Failure record when no JSON could be extracted (docker.py line 38):
    the literal message plus the final 500 bytes of the raw logs. -/
def noJsonRecord (logs : List Char) : Json :=
  .obj [(errKey, .str "No JSON result found in logs".toList),
        (rawKey, .str (lastN 500 logs))]

/-- Backward scan of the reversed line list: the first line that both
    starts with a left brace and ends with a right brace and parses wins
    (docker.py lines 22 to 28). -/
def scanBack (loads : List Char → Option Json) : List (List Char) → Option Json
  | [] => none
  | l :: ls =>
    if headIs '\x7b' l && lastIs '\x7d' l then
      match loads l with
      | some j => some j
      | none => scanBack loads ls
    else scanBack loads ls

/-- Whole-log fallback (docker.py lines 29 to 37): slice from the last
    left brace to the last right brace and parse it when the slice is
    properly ordered. -/
def fallbackParse (loads : List Char → Option Json) (logs : List Char) : Json :=
  match rfindIdx '\x7b' logs, rfindIdx '\x7d' logs with
  | some s, some e =>
    if s < e then
      match loads (sliceIncl logs s e) with
      | some j => j
      | none => noJsonRecord logs
    else noJsonRecord logs
  | _, _ => noJsonRecord logs

/-- parse_evaluation_output with the JSON loader abstracted: split into
    stripped non-blank lines, scan from the bottom for a brace-delimited
    line that parses, then fall back to the last-brace slice, then the
    no-JSON failure record; empty input short-circuits to the no-output
    record. -/
def parseEvalOutputWith (loads : List Char → Option Json) (logs : List Char) : Json :=
  let lines := pyLines logs
  if lines.isEmpty then noOutputRecord
  else
    match scanBack loads lines.reverse with
    | some j => j
    | none => fallbackParse loads logs

/-- The embedded parse_evaluation_output of docker.py, with the concrete
    loader model. -/
def parse_evaluation_output (logs : List Char) : Json :=
  parseEvalOutputWith jsonLoads logs

/-- A line counts as a hit of the backward scan when it is brace-delimited
    and the loader accepts it. -/
def lineHit (loads : List Char → Option Json) (l : List Char) : Bool :=
  headIs '\x7b' l && lastIs '\x7d' l && (loads l).isSome

/-! ### The sandbox executor (docker.py, run_evaluation_container)

Each docker SDK call and the artifact download are effectful; their
outcomes are fixed by a SandboxOracle.  Python exceptions are the PyExc
values; the except clauses of the source dispatch on the exception class
in source order (NotFound, then APIError, then Exception).  The body of
the function consumes only the fields it reaches, and the embedding also
returns the trace of backend calls that were issued. -/

/-- A raised Python exception, classified the way the except clauses of
    run_evaluation_container distinguish them. -/
inductive PyExc where
  | notFound (msg : List Char)
  | apiErr (msg : List Char)
  | exc (msg : List Char)
deriving DecidableEq

/-- The fixed, caller-independent resource limits and security options
    passed to the create call (docker.py lines 163 to 168). -/
structure Limits where
  networkMode : List Char
  memLimit : List Char
  pidsLimit : Nat
  cpuQuota : Nat
  securityOpt : List (List Char)
  capDrop : List (List Char)
deriving DecidableEq

/-- The constants of the source: no network, 512m memory, 50 pids,
    cpu_quota 50000 (half of one core at the default period 100000),
    no-new-privileges, all capabilities dropped. -/
def fixedLimits : Limits :=
  { networkMode := "none".toList
    memLimit := "512m".toList
    pidsLimit := 50
    cpuQuota := 50000
    securityOpt := ["no-new-privileges".toList]
    capDrop := ["ALL".toList] }

/-- The evaluator image name (settings.EVALUATOR_IMAGE default). -/
def EVALUATOR_IMAGE : List Char := "rl-evaluator:latest".toList

/-- Keep the characters the container-name sanitizer allows. -/
def isNameChar (c : Char) : Bool :=
  c.isAlpha || c.isDigit || c = '_' || c = '.' || c = '-'

/-- Container name: eval- prefix, sanitized, truncated to 63 characters. -/
def sanitizeName (sid : List Char) : List Char :=
  (("eval-".toList ++ sid).filter isNameChar).take 63

/-- Everything passed to client.containers.create. -/
structure ContainerConfig where
  image : List Char
  name : List Char
  labelSubmission : List Char
  labelEnv : List Char
  envEnvId : List Char
  envScriptPath : List Char
  envSubmissionId : List Char
  command : List Char
  detach : Bool
  limits : Limits
deriving DecidableEq

/-- The create-call configuration of the source for the given inputs:
    name and labels derive from the caller, the limits never do. -/
def mkConfig (sid envid : List Char) : ContainerConfig :=
  { image := EVALUATOR_IMAGE
    name := sanitizeName sid
    labelSubmission := sid
    labelEnv := envid
    envEnvId := envid
    envScriptPath := "/home/appuser/submission.py".toList
    envSubmissionId := sid
    command := "/home/appuser/entrypoint.sh".toList
    detach := true
    limits := fixedLimits }

/-- Outcomes of every effectful call the function can make, fixed up
    front: an arbitrary behaviour of the sandbox backend and the artifact
    source.  The downloaded payload bytes are abstracted away (they do not
    influence control flow beyond the injection call). -/
structure SandboxOracle where
  clientInit : Except PyExc Unit
  download : Except PyExc Unit
  create : Except PyExc Unit
  inject : Except PyExc Unit
  startC : Except PyExc Unit
  waitC : Except PyExc (Option Int)
  logsMain : Except PyExc (List Char)
  logsHandler : Except PyExc (List Char)
  stopC : Except PyExc Unit
  removeC : Except PyExc Unit
  closeC : Except PyExc Unit

/-- The trace of backend calls the function issued. -/
inductive SEvent where
  | clientCreated
  | downloaded
  | containerCreated (cfg : ContainerConfig)
  | injected
  | started
  | waited
  | logsFetched
  | stopped
  | removedForce
  | clientClosed
deriving DecidableEq

/-- The dictionary run_evaluation_container returns, with one optional
    field per key the source can set. -/
structure Response where
  status : Option Int := none
  logs : Option (List Char) := none
  output : Option Json := none
  error : Option Json := none
  stage : Option (List Char) := none

/-- An apostrophe character, built numerically. -/
def quoteC : Char := Char.ofNat 39

/-- Message of the ValueError raised for a blank env_id. -/
def valueErrorMsg : List Char :=
  "ENV_ID is required to run the evaluator container".toList

/-- Error text of the generic stage-failure handler. -/
def stageFailureMsg (stg msg : List Char) : List Char :=
  "Container execution failed at stage ".toList ++ [quoteC] ++ stg
    ++ [quoteC] ++ ": ".toList ++ msg

/-- Error text of the APIError handler. -/
def apiErrorMsg (m : List Char) : List Char := "Docker API error: ".toList ++ m

/-- Error text of the NotFound handler. -/
def imageNotFoundMsg : List Char :=
  "Docker image not found: ".toList ++ EVALUATOR_IMAGE
    ++ ". Build it with: docker build -f docker/Dockerfile.evaluator -t rl-evaluator:latest .".toList

/-- Synthesized message when a clean exit carries no score field. -/
def missingScoreMsg : List Char :=
  "No ".toList ++ [quoteC] ++ "score".toList ++ [quoteC]
    ++ " found in script output. Ensure your script prints a single JSON line with a ".toList
    ++ [quoteC] ++ "score".toList ++ [quoteC] ++ " field.".toList

/-- Does the parsed output carry a score key (the has_score test of
    docker.py line 242). -/
def hasScoreKey : Json → Bool
  | .obj ms => (assocGet scoreKey ms).isSome
  | _ => false

/-- The promoted top-level error for a clean exit without a score: the
    error field of the parsed record when it is a dict and the value is
    truthy, else the synthesized message (docker.py lines 245 to 246,
    with Python or-falsiness). -/
def promotedError (parsed : Json) : Json :=
  match parsed with
  | .obj ms =>
    match assocGet errKey ms with
    | some v => if jsonFalsy v then .str missingScoreMsg else v
    | none => .str missingScoreMsg
  | _ => .str missingScoreMsg

/-- The response constructed on the normal path (docker.py lines 233 to
    247): status, logs and parsed output always; a top-level error for a
    nonzero exit or a missing score. -/
def buildResponse (ec : Int) (lgs : List Char) (parsed : Json) : Response :=
  let base : Response := { status := some ec, logs := some lgs, output := some parsed }
  if ec ≠ 0 then { base with error := some (.str "Evaluator exited non-zero".toList) }
  else if hasScoreKey parsed then base
  else { base with error := some (promotedError parsed) }

/-- The except-clause dispatch (docker.py lines 249 to 273): NotFound and
    APIError produce bare error records; any other exception reports the
    stage reached and refetches container logs (best effort, swallowed)
    when a container exists. -/
def handlerResponse (lh : Except PyExc (List Char)) (ex : PyExc)
    (stg : List Char) (containerMade : Bool) : Response × List SEvent :=
  match ex with
  | .notFound _ => ({ error := some (.str imageNotFoundMsg) }, [])
  | .apiErr m => ({ error := some (.str (apiErrorMsg m)) }, [])
  | .exc m =>
    let p : List Char × List SEvent :=
      if containerMade then
        match lh with
        | .ok l => (l, [SEvent.logsFetched])
        | .error _ => ([], [SEvent.logsFetched])
      else ([], [])
    ({ error := some (.str (stageFailureMsg stg m))
       stage := some stg
       logs := some (lastN 1000 p.1) }, p.2)

/-- What the try body leaves behind: the response the except machinery or
    the normal path produced, whether the client and the container were
    ever created, and the trace so far. -/
structure BodyOut where
  resp : Response
  clientMade : Bool
  containerMade : Bool
  events : List SEvent

/-- The try body of run_evaluation_container (docker.py lines 116 to
    247), stage by stage, as a function of the call outcomes: validation
    of env_id, client creation, artifact download, container creation
    with mkConfig, code injection, start, wait (StatusCode defaulting to
    1), log collection, parse and response assembly.  Every exception is
    dispatched to handlerResponse with the stage reached. -/
def runBody (ci dl cr inj st : Except PyExc Unit) (wt : Except PyExc (Option Int))
    (lm : Except PyExc (List Char)) (lh : Except PyExc (List Char))
    (sid envid : List Char) : BodyOut :=
  if (pyStrip envid).isEmpty then
    let h := handlerResponse lh (.exc valueErrorMsg) "init".toList false
    ⟨h.1, false, false, h.2⟩
  else
    match ci with
    | .error ex =>
      let h := handlerResponse lh ex "init".toList false
      ⟨h.1, false, false, h.2⟩
    | .ok _ =>
      match dl with
      | .error ex =>
        let h := handlerResponse lh ex "download_submission".toList false
        ⟨h.1, true, false, SEvent.clientCreated :: h.2⟩
      | .ok _ =>
        match cr with
        | .error ex =>
          let h := handlerResponse lh ex "create_container".toList false
          ⟨h.1, true, false, SEvent.clientCreated :: SEvent.downloaded :: h.2⟩
        | .ok _ =>
          match inj with
          | .error ex =>
            let h := handlerResponse lh ex "inject_script".toList true
            ⟨h.1, true, true,
              [SEvent.clientCreated, SEvent.downloaded,
               SEvent.containerCreated (mkConfig sid envid)] ++ h.2⟩
          | .ok _ =>
            match st with
            | .error ex =>
              let h := handlerResponse lh ex "start".toList true
              ⟨h.1, true, true,
                [SEvent.clientCreated, SEvent.downloaded,
                 SEvent.containerCreated (mkConfig sid envid), SEvent.injected] ++ h.2⟩
            | .ok _ =>
              match wt with
              | .error ex =>
                let h := handlerResponse lh ex "wait".toList true
                ⟨h.1, true, true,
                  [SEvent.clientCreated, SEvent.downloaded,
                   SEvent.containerCreated (mkConfig sid envid), SEvent.injected,
                   SEvent.started] ++ h.2⟩
              | .ok w =>
                match lm with
                | .error ex =>
                  let h := handlerResponse lh ex "collect_logs".toList true
                  ⟨h.1, true, true,
                    [SEvent.clientCreated, SEvent.downloaded,
                     SEvent.containerCreated (mkConfig sid envid), SEvent.injected,
                     SEvent.started, SEvent.waited] ++ h.2⟩
                | .ok lgs =>
                  ⟨buildResponse (w.getD 1) lgs (parse_evaluation_output lgs),
                    true, true,
                    [SEvent.clientCreated, SEvent.downloaded,
                     SEvent.containerCreated (mkConfig sid envid), SEvent.injected,
                     SEvent.started, SEvent.waited, SEvent.logsFetched]⟩

/-- The embedded run_evaluation_container: the try body, then the finally
    block.  Stop and forced removal of the container are attempted when
    one was created, with failures of either call swallowed (their oracle
    outcomes are not even consulted); the client is closed when one was
    created, and an exception from that close call is NOT caught by the
    source, so it escapes, replacing the primary result. -/
def run_evaluation_container (o : SandboxOracle) (sid envid : List Char) :
    Except PyExc Response × List SEvent :=
  let b := runBody o.clientInit o.download o.create o.inject o.startC o.waitC
    o.logsMain o.logsHandler sid envid
  let cleanup :=
    (if b.containerMade then [SEvent.stopped, SEvent.removedForce] else [])
      ++ (if b.clientMade then [SEvent.clientClosed] else [])
  let res : Except PyExc Response :=
    if b.clientMade then
      match o.closeC with
      | .ok _ => .ok b.resp
      | .error ex => .error ex
    else .ok b.resp
  (res, b.events ++ cleanup)

/-! ### The success classification (app/services/evaluation.py lines 81 to 82) -/

/-- result.get with a default of the empty dict for the parsed output. -/
def parsedOutputOf (r : Response) : Json := r.output.getD (Json.obj [])

/-- The is_success test of evaluate_submission: status equals zero, the
    parsed output is a dict, and it has a score key. -/
def is_success (r : Response) : Bool :=
  (match r.status with
   | some n => n = 0
   | none => false)
  && (match parsedOutputOf r with
      | .obj ms => (assocGet scoreKey ms).isSome
      | _ => false)

/-- Extract the response from a non-escaping run (total helper for
    stating concrete counterexamples). -/
def respOf (x : Except PyExc Response) : Response :=
  match x with
  | .ok r => r
  | .error _ => {}

/-! ### The staging validation (app/api/submissions.py, submit_rl_script) -/

/-- The validation failure reasons of the submission endpoint, named after
    the metric labels of the source. -/
inductive VReason where
  | no_file
  | empty_filename
  | no_py
  | main_not_in_files
  | missing_main
  | main_not_py
deriving DecidableEq

/-- os.path.basename restricted to forward slashes. -/
def basename (p : List Char) : List Char :=
  (p.reverse.takeWhile (fun c => c ≠ '/')).reverse

/-- name.lower().endswith(".py") of the source. -/
def endsPy (name : List Char) : Bool :=
  ".py".toList.isSuffixOf (name.map Char.toLower)

/-- The multi-file validation of submit_rl_script (lines 74 to 89 plus
    the preceding filename checks), in source order: empty filename,
    then no python file among the basenames, then the main-file choice
    (required, must be among the files, must be a python file).  The ok
    value is the chosen main file; only after an ok does the source build
    and store the archive. -/
def submitMultiValidate (fileNames : List (List Char))
    (mainFile : Option (List Char)) : Except VReason (List Char) :=
  if fileNames.any (fun f => f.isEmpty) then .error .empty_filename
  else
    let safeNames := fileNames.map basename
    if !safeNames.any endsPy then .error .no_py
    else
      match mainFile with
      | some m =>
        let cand := basename m
        if safeNames.contains cand then
          if endsPy cand then .ok cand else .error .main_not_py
        else .error .main_not_in_files
      | none => .error .missing_main

/-- The upload dispatch of submit_rl_script: no file at all is rejected;
    a non-empty files list takes the multi-file path; otherwise the
    legacy single file is stored directly.  An error means the request is
    rejected before any artifact is stored. -/
def submitValidate (hasSingle : Bool) (fileNames : List (List Char))
    (mainFile : Option (List Char)) : Except VReason (Option (List Char)) :=
  if fileNames.isEmpty && !hasSingle then .error .no_file
  else if !fileNames.isEmpty then (submitMultiValidate fileNames mainFile).map some
  else .ok none

/-! ### Concrete data for witnesses and counterexamples -/

/-- The response produced for a blank env_id: a stage-init failure with
    empty logs, before any backend call. -/
def initFailResponse : Response :=
  { error := some (.str (stageFailureMsg "init".toList valueErrorMsg))
    stage := some "init".toList
    logs := some [] }

/-- The score field of the parsed output of a response, when the parsed
    output is a dict. -/
def scoreFieldOf (r : Response) : Option Json :=
  match parsedOutputOf r with
  | .obj ms => assocGet scoreKey ms
  | _ => none

/-- A backend behaviour in which every call succeeds, the container exits
    cleanly, and the logs end with a well-formed score line. -/
def sampleOracle : SandboxOracle :=
  { clientInit := .ok (), download := .ok (), create := .ok (), inject := .ok ()
    startC := .ok (), waitC := .ok (some 0)
    logsMain := .ok "\x7b\"score\": 2\x7d".toList
    logsHandler := .ok [], stopC := .ok (), removeC := .ok (), closeC := .ok () }

/-- A behaviour identical to sampleOracle except that the client close
    raises during cleanup. -/
def closeFailOracle : SandboxOracle :=
  { sampleOracle with closeC := .error (.exc "boom".toList) }

/-- A second close-failing behaviour, with a distinct message. -/
def escapeOracle : SandboxOracle :=
  { sampleOracle with closeC := .error (.exc "crash".toList) }

/-- A behaviour in which the evaluator exits cleanly but self-reports a
    non-numeric score value. -/
def strScoreOracle : SandboxOracle :=
  { sampleOracle with logsMain := .ok "\x7b\"score\": \"oops\"\x7d".toList }

/-! ### Support lemmas for the extractor -/

/-- The backward scan equals the loader applied to the first hit of the
    scanned list. -/
theorem scanBack_eq (loads : List Char → Option Json) :
    ∀ rl : List (List Char),
      scanBack loads rl = ((rl.filter (lineHit loads)).head?).bind loads
  | [] => by simp [scanBack]
  | l :: ls => by
    rcases hb : (headIs '\x7b' l && lastIs '\x7d' l) with _ | _
    · have hline : lineHit loads l = false := by simp [lineHit, hb]
      simp [scanBack, hb, List.filter_cons, hline, scanBack_eq loads ls]
    · cases hl : loads l with
      | some j =>
        have hline : lineHit loads l = true := by simp [lineHit, hb, hl]
        simp [scanBack, hb, hl, List.filter_cons, hline]
      | none =>
        have hline : lineHit loads l = false := by simp [lineHit, hb, hl]
        simp [scanBack, hb, hl, List.filter_cons, hline, scanBack_eq loads ls]

/-- Membership survives dropWhile for an element failing the predicate. -/
theorem mem_dropWhile_of_not (p : Char → Bool) (l : List Char) (c : Char)
    (hc : c ∈ l) (hp : p c = false) : c ∈ l.dropWhile p := by
  have hsplit : l.takeWhile p ++ l.dropWhile p = l :=
    List.takeWhile_append_dropWhile p l
  rw [← hsplit] at hc
  rcases List.mem_append.mp hc with h | h
  · have := List.mem_takeWhile_imp h
    simp [hp] at this
  · exact h

/-- A non-whitespace character of a line survives the Python strip. -/
theorem mem_pyStrip (l : List Char) (c : Char) (hc : c ∈ l)
    (hp : isPySpace c = false) : c ∈ pyStrip l := by
  unfold pyStrip
  have h1 : c ∈ l.dropWhile isPySpace := mem_dropWhile_of_not _ _ _ hc hp
  have h2 : c ∈ (l.dropWhile isPySpace).reverse := List.mem_reverse.mpr h1
  have h3 := mem_dropWhile_of_not _ _ _ h2 hp
  exact List.mem_reverse.mpr h3

/-- Stripping a fully-whitespace line gives the empty line. -/
theorem pyStrip_eq_nil_of_all (l : List Char)
    (h : ∀ c ∈ l, isPySpace c = true) : pyStrip l = [] := by
  unfold pyStrip
  have : l.dropWhile isPySpace = [] := List.dropWhile_eq_nil_iff.mpr h
  simp [this]

/-- Any non-line-break character of the input lands in one of its split
    lines. -/
theorem splitlinesAux_mem_ex (c : Char) (hc : isLineBreak c = false) :
    ∀ (cur rest : List Char), (c ∈ cur ∨ c ∈ rest) →
      ∃ l, l ∈ splitlinesAux cur rest ∧ c ∈ l := by
  have hcr : c ≠ '\r' := by
    intro hh; rw [hh] at hc; simp [isLineBreak] at hc
  have hcn : c ≠ '\n' := by
    intro hh; rw [hh] at hc; simp [isLineBreak] at hc
  intro cur rest
  induction cur, rest using splitlinesAux.induct with
  | case1 cur hemp =>
    intro h
    rcases h with h | h
    · rw [List.isEmpty_iff] at hemp
      subst hemp
      simp at h
    · simp at h
  | case2 cur hemp =>
    intro h
    rcases h with h | h
    · refine ⟨cur.reverse, ?_, List.mem_reverse.mpr h⟩
      simp [splitlinesAux, hemp]
    · simp at h
  | case3 cur rest ih =>
    intro h
    rcases h with h | h
    · exact ⟨cur.reverse, by simp [splitlinesAux], List.mem_reverse.mpr h⟩
    · have hr : c ∈ rest := by
        rcases List.mem_cons.mp h with h1 | h1
        · exact absurd h1 hcr
        · rcases List.mem_cons.mp h1 with h2 | h2
          · exact absurd h2 hcn
          · exact h2
      rcases ih (Or.inr hr) with ⟨l, hl, hcl⟩
      exact ⟨l, by simp [splitlinesAux, hl], hcl⟩
  | case4 cur rest hside ih =>
    intro h
    rcases h with h | h
    · refine ⟨cur.reverse, ?_, List.mem_reverse.mpr h⟩
      rw [show splitlinesAux cur ('\r' :: rest)
            = cur.reverse :: splitlinesAux [] rest from by
        cases rest with
        | nil => rfl
        | cons x xs =>
          cases hx : decide (x = '\n') with
          | true =>
            exact absurd (by simpa using hx) (fun hh => hside xs (by rw [hh]))
          | false =>
            have : x ≠ '\n' := by simpa using hx
            simp [splitlinesAux, this]]
      exact List.mem_cons_self _ _
    · have hr : c ∈ rest := by
        rcases List.mem_cons.mp h with h1 | h1
        · exact absurd h1 hcr
        · exact h1
      rcases ih (Or.inr hr) with ⟨l, hl, hcl⟩
      refine ⟨l, ?_, hcl⟩
      rw [show splitlinesAux cur ('\r' :: rest)
            = cur.reverse :: splitlinesAux [] rest from by
        cases rest with
        | nil => rfl
        | cons x xs =>
          cases hx : decide (x = '\n') with
          | true =>
            exact absurd (by simpa using hx) (fun hh => hside xs (by rw [hh]))
          | false =>
            have : x ≠ '\n' := by simpa using hx
            simp [splitlinesAux, this]]
      exact List.mem_cons_of_mem _ hl
  | case5 cur rest ih =>
    intro h
    rcases h with h | h
    · exact ⟨cur.reverse, by simp [splitlinesAux], List.mem_reverse.mpr h⟩
    · have hr : c ∈ rest := by
        rcases List.mem_cons.mp h with h1 | h1
        · exact absurd h1 hcn
        · exact h1
      rcases ih (Or.inr hr) with ⟨l, hl, hcl⟩
      exact ⟨l, by simp [splitlinesAux, hl], hcl⟩
  | case6 cur x rest hs1 hs2 hs3 ih =>
    intro h
    have hx1 : x ≠ '\r' ∨ rest.head? ≠ some '\n' := by
      cases hxr : decide (x = '\r') with
      | false => exact Or.inl (by simpa using hxr)
      | true =>
        refine Or.inr ?_
        intro hh
        cases rest with
        | nil => simp at hh
        | cons y ys =>
          simp at hh
          exact hs1 ys (by simpa using hxr) (by rw [hh])
    have heq : splitlinesAux cur (x :: rest) = splitlinesAux (x :: cur) rest := by
      have hxr : x ≠ '\r' := fun hh => hs2 hh
      have hxn : x ≠ '\n' := fun hh => hs3 hh
      cases rest with
      | nil => simp [splitlinesAux, hxr, hxn]
      | cons y ys => simp [splitlinesAux, hxr, hxn]
    rw [heq]
    apply ih
    rcases h with h | h
    · exact Or.inl (List.mem_cons_of_mem x h)
    · rcases List.mem_cons.mp h with h1 | h1
      · exact Or.inl (h1 ▸ List.mem_cons_self x cur)
      · exact Or.inr h1

/-- Characters of any split line come from the accumulator or the input. -/
theorem splitlinesAux_mem_sub (c : Char) :
    ∀ (cur rest : List Char), ∀ l ∈ splitlinesAux cur rest, c ∈ l →
      c ∈ cur ∨ c ∈ rest := by
  intro cur rest
  induction cur, rest using splitlinesAux.induct with
  | case1 cur hemp =>
    intro l hl
    simp [splitlinesAux, hemp] at hl
  | case2 cur hemp =>
    intro l hl hcl
    simp [splitlinesAux, hemp] at hl
    subst hl
    exact Or.inl (List.mem_reverse.mp hcl)
  | case3 cur rest ih =>
    intro l hl hcl
    simp only [splitlinesAux] at hl
    rcases List.mem_cons.mp hl with h1 | h1
    · exact Or.inl (List.mem_reverse.mp (h1 ▸ hcl))
    · rcases ih l h1 hcl with h2 | h2
      · simp at h2
      · exact Or.inr (by simp [h2])
  | case4 cur rest hside ih =>
    intro l hl hcl
    have heq : splitlinesAux cur ('\r' :: rest)
        = cur.reverse :: splitlinesAux [] rest := by
      cases rest with
      | nil => rfl
      | cons x xs =>
        cases hx : decide (x = '\n') with
        | true =>
          exact absurd (by simpa using hx) (fun hh => hside xs (by rw [hh]))
        | false =>
          have : x ≠ '\n' := by simpa using hx
          simp [splitlinesAux, this]
    rw [heq] at hl
    rcases List.mem_cons.mp hl with h1 | h1
    · exact Or.inl (List.mem_reverse.mp (h1 ▸ hcl))
    · rcases ih l h1 hcl with h2 | h2
      · simp at h2
      · exact Or.inr (by simp [h2])
  | case5 cur rest ih =>
    intro l hl hcl
    simp only [splitlinesAux] at hl
    rcases List.mem_cons.mp hl with h1 | h1
    · exact Or.inl (List.mem_reverse.mp (h1 ▸ hcl))
    · rcases ih l h1 hcl with h2 | h2
      · simp at h2
      · exact Or.inr (by simp [h2])
  | case6 cur x rest hs1 hs2 hs3 ih =>
    intro l hl hcl
    have heq : splitlinesAux cur (x :: rest) = splitlinesAux (x :: cur) rest := by
      have hxr : x ≠ '\r' := fun hh => hs2 hh
      have hxn : x ≠ '\n' := fun hh => hs3 hh
      cases rest with
      | nil => simp [splitlinesAux, hxr, hxn]
      | cons y ys => simp [splitlinesAux, hxr, hxn]
    rw [heq] at hl
    rcases ih l hl hcl with h2 | h2
    · rcases List.mem_cons.mp h2 with h3 | h3
      · exact Or.inr (by simp [h3])
      · exact Or.inl h3
    · exact Or.inr (by simp [h2])

/-- A non-whitespace character in the raw logs forces at least one
    non-blank stripped line. -/
theorem pyLines_ne_nil (logs : List Char) (c : Char) (hc : c ∈ logs)
    (hp : isPySpace c = false) : pyLines logs ≠ [] := by
  have hlb : isLineBreak c = false := by
    rcases hn : decide (c = '\n') with _ | _
    · rcases hr : decide (c = '\r') with _ | _
      · simp [isLineBreak]
        exact ⟨by simpa using hn, by simpa using hr⟩
      · have : c = '\r' := by simpa using hr
        rw [this] at hp
        simp [isPySpace] at hp
    · have : c = '\n' := by simpa using hn
      rw [this] at hp
      simp [isPySpace] at hp
  rcases splitlinesAux_mem_ex c hlb [] logs (Or.inr hc) with ⟨l, hl, hcl⟩
  have hstrip : c ∈ pyStrip l := mem_pyStrip l c hcl hp
  have hne : (pyStrip l).isEmpty = false := by
    cases hps : pyStrip l with
    | nil => rw [hps] at hstrip; simp at hstrip
    | cons a as => simp
  intro hcontra
  have : pyStrip l ∈ pyLines logs := by
    unfold pyLines
    rw [List.mem_filter]
    exact ⟨List.mem_map_of_mem pyStrip hl, by simp [hne]⟩
  rw [hcontra] at this
  simp at this

/-- A fully-whitespace raw log has no non-blank stripped lines. -/
theorem pyLines_eq_nil (logs : List Char)
    (h : ∀ c ∈ logs, isPySpace c = true) : pyLines logs = [] := by
  unfold pyLines
  rw [List.filter_eq_nil_iff]
  intro l hl
  rcases List.mem_map.mp hl with ⟨l0, hl0, rfl⟩
  have : ∀ c ∈ l0, isPySpace c = true := by
    intro c hcl
    rcases splitlinesAux_mem_sub c [] logs l0 hl0 hcl with h2 | h2
    · simp at h2
    · exact h c h2
  simp [pyStrip_eq_nil_of_all l0 this]

/-- rfind only returns an index when the character occurs. -/
theorem rfindIdx_mem (c : Char) : ∀ (l : List Char) (i : Nat),
    rfindIdx c l = some i → c ∈ l
  | [], i => by simp [rfindIdx]
  | x :: xs, i => by
    intro h
    simp only [rfindIdx] at h
    cases hr : rfindIdx c xs with
    | some k =>
      exact List.mem_cons_of_mem _ (rfindIdx_mem c xs k hr)
    | none =>
      rw [hr] at h
      rcases hx : decide (x = c) with _ | _
      · simp [by simpa using hx] at h
      · have : x = c := by simpa using hx
        simp [this]

/-- The last-500-bytes diagnostic tail of a non-empty log is non-empty. -/
theorem lastN_ne_nil (n : Nat) (l : List Char) (hn : 0 < n) (hl : l ≠ []) :
    lastN n l ≠ [] := by
  unfold lastN
  intro h
  have hlen := congrArg List.length h
  rw [List.length_drop] at hlen
  simp at hlen
  have : 0 < l.length := List.length_pos.mpr hl
  omega

/-! ### Support lemmas for the executor -/

/-- Every except-clause response carries an error explanation. -/
theorem handlerResponse_error_isSome (lh : Except PyExc (List Char)) (ex : PyExc)
    (stg : List Char) (b : Bool) :
    (handlerResponse lh ex stg b).1.error.isSome = true := by
  cases ex <;> cases b <;> cases lh <;> simp [handlerResponse]

/-- Restatement of the previous lemma as a disequality. -/
theorem handlerResponse_error_ne_none (lh : Except PyExc (List Char)) (ex : PyExc)
    (stg : List Char) (b : Bool) :
    (handlerResponse lh ex stg b).1.error ≠ none :=
  Option.isSome_iff_ne_none.mp (handlerResponse_error_isSome lh ex stg b)

/-- The except clauses never create containers. -/
theorem handlerResponse_no_create (lh : Except PyExc (List Char)) (ex : PyExc)
    (stg : List Char) (b : Bool) (cfg : ContainerConfig) :
    SEvent.containerCreated cfg ∉ (handlerResponse lh ex stg b).2 := by
  cases ex <;> cases b <;> cases lh <;> simp [handlerResponse]

/-- The normal-path response always reports the exit code as its status. -/
theorem buildResponse_status (ec : Int) (lgs : List Char) (parsed : Json) :
    (buildResponse ec lgs parsed).status = some ec := by
  unfold buildResponse
  split <;> simp
  split <;> simp

/-- The normal-path response omits the error field only on a clean exit. -/
theorem buildResponse_error_none (ec : Int) (lgs : List Char) (parsed : Json)
    (h : (buildResponse ec lgs parsed).error = none) : ec = 0 := by
  unfold buildResponse at h
  by_cases hec : ec = 0
  · exact hec
  · simp [hec] at h

/-- A response of the try body without an error field can only come from
    the normal path with a clean exit. -/
theorem runBody_error_none (ci dl cr inj st : Except PyExc Unit)
    (wt : Except PyExc (Option Int)) (lm lh : Except PyExc (List Char))
    (sid envid : List Char)
    (h : (runBody ci dl cr inj st wt lm lh sid envid).resp.error = none) :
    (runBody ci dl cr inj st wt lm lh sid envid).resp.status = some 0 := by
  unfold runBody at h ⊢
  by_cases hE : (pyStrip envid).isEmpty = true
  · rw [if_pos hE] at h
    exact absurd h (handlerResponse_error_ne_none lh _ _ false)
  · rw [if_neg hE] at h ⊢
    cases ci with
    | error ex => exact absurd h (handlerResponse_error_ne_none lh ex _ false)
    | ok u =>
      cases dl with
      | error ex => exact absurd h (handlerResponse_error_ne_none lh ex _ false)
      | ok u =>
        cases cr with
        | error ex => exact absurd h (handlerResponse_error_ne_none lh ex _ false)
        | ok u =>
          cases inj with
          | error ex => exact absurd h (handlerResponse_error_ne_none lh ex _ true)
          | ok u =>
            cases st with
            | error ex => exact absurd h (handlerResponse_error_ne_none lh ex _ true)
            | ok u =>
              cases wt with
              | error ex => exact absurd h (handlerResponse_error_ne_none lh ex _ true)
              | ok w =>
                cases lm with
                | error ex => exact absurd h (handlerResponse_error_ne_none lh ex _ true)
                | ok lgs =>
                  simp only [BodyOut.resp] at h ⊢
                  rw [buildResponse_status]
                  rw [buildResponse_error_none _ _ _ h]

/-- If the trace of the try body records a container creation, both the
    client and the container were created, and the creation used exactly
    the configuration mkConfig of the inputs. -/
theorem runBody_create (ci dl cr inj st : Except PyExc Unit)
    (wt : Except PyExc (Option Int)) (lm lh : Except PyExc (List Char))
    (sid envid : List Char) (cfg : ContainerConfig)
    (h : SEvent.containerCreated cfg
      ∈ (runBody ci dl cr inj st wt lm lh sid envid).events) :
    (runBody ci dl cr inj st wt lm lh sid envid).clientMade = true
    ∧ (runBody ci dl cr inj st wt lm lh sid envid).containerMade = true
    ∧ cfg = mkConfig sid envid := by
  unfold runBody at h ⊢
  by_cases hE : (pyStrip envid).isEmpty = true
  · rw [if_pos hE] at h
    exact absurd h (handlerResponse_no_create lh _ _ false cfg)
  · rw [if_neg hE] at h ⊢
    cases ci with
    | error ex => exact absurd h (handlerResponse_no_create lh ex _ false cfg)
    | ok u =>
      cases dl with
      | error ex =>
        simp only [BodyOut.events, List.mem_cons] at h
        rcases h with h | h
        · exact absurd h (by simp)
        · exact absurd h (handlerResponse_no_create lh ex _ false cfg)
      | ok u =>
        cases cr with
        | error ex =>
          simp only [BodyOut.events, List.mem_cons] at h
          rcases h with h | h | h
          · exact absurd h (by simp)
          · exact absurd h (by simp)
          · exact absurd h (handlerResponse_no_create lh ex _ false cfg)
        | ok u =>
          cases inj with
          | error ex =>
            simp only [BodyOut.events, List.cons_append, List.nil_append,
              List.mem_cons] at h
            rcases h with h | h | h | h
            · exact absurd h (by simp)
            · exact absurd h (by simp)
            · simp only [SEvent.containerCreated.injEq] at h
              exact ⟨rfl, rfl, h⟩
            · exact absurd h (handlerResponse_no_create lh ex _ true cfg)
          | ok u =>
            cases st with
            | error ex =>
              simp only [BodyOut.events, List.cons_append, List.nil_append,
                List.mem_cons] at h
              rcases h with h | h | h | h | h
              · exact absurd h (by simp)
              · exact absurd h (by simp)
              · simp only [SEvent.containerCreated.injEq] at h
                exact ⟨rfl, rfl, h⟩
              · exact absurd h (by simp)
              · exact absurd h (handlerResponse_no_create lh ex _ true cfg)
            | ok u =>
              cases wt with
              | error ex =>
                simp only [BodyOut.events, List.cons_append, List.nil_append,
                  List.mem_cons] at h
                rcases h with h | h | h | h | h | h
                · exact absurd h (by simp)
                · exact absurd h (by simp)
                · simp only [SEvent.containerCreated.injEq] at h
                  exact ⟨rfl, rfl, h⟩
                · exact absurd h (by simp)
                · exact absurd h (by simp)
                · exact absurd h (handlerResponse_no_create lh ex _ true cfg)
              | ok w =>
                cases lm with
                | error ex =>
                  simp only [BodyOut.events, List.cons_append, List.nil_append,
                    List.mem_cons] at h
                  rcases h with h | h | h | h | h | h | h
                  · exact absurd h (by simp)
                  · exact absurd h (by simp)
                  · simp only [SEvent.containerCreated.injEq] at h
                    exact ⟨rfl, rfl, h⟩
                  · exact absurd h (by simp)
                  · exact absurd h (by simp)
                  · exact absurd h (by simp)
                  · exact absurd h (handlerResponse_no_create lh ex _ true cfg)
                | ok lgs =>
                  simp only [BodyOut.events, List.mem_cons] at h
                  rcases h with h | h | h | h | h | h | h | h
                  · exact absurd h (by simp)
                  · exact absurd h (by simp)
                  · simp only [SEvent.containerCreated.injEq] at h
                    exact ⟨rfl, rfl, h⟩
                  · exact absurd h (by simp)
                  · exact absurd h (by simp)
                  · exact absurd h (by simp)
                  · exact absurd h (by simp)
                  · exact absurd h (by simp)

/-- When the close call succeeds, the finally block hands the body
    response through unchanged. -/
theorem run_fst_of_close_ok (o : SandboxOracle) (sid envid : List Char)
    (h : o.closeC = .ok ()) :
    (run_evaluation_container o sid envid).fst
      = .ok (runBody o.clientInit o.download o.create o.inject o.startC o.waitC
          o.logsMain o.logsHandler sid envid).resp := by
  unfold run_evaluation_container
  by_cases hb : (runBody o.clientInit o.download o.create o.inject o.startC o.waitC
      o.logsMain o.logsHandler sid envid).clientMade
  · simp [hb, h]
  · simp [hb]

/-- The cleanup suffix of the trace never creates containers. -/
theorem run_snd_create (o : SandboxOracle) (sid envid : List Char)
    (cfg : ContainerConfig)
    (h : SEvent.containerCreated cfg ∈ (run_evaluation_container o sid envid).snd) :
    SEvent.containerCreated cfg
      ∈ (runBody o.clientInit o.download o.create o.inject o.startC o.waitC
          o.logsMain o.logsHandler sid envid).events := by
  unfold run_evaluation_container at h
  simp only [List.mem_append] at h
  rcases h with h | h1 | h1
  · exact h
  · exfalso
    by_cases hc : (runBody o.clientInit o.download o.create o.inject o.startC
        o.waitC o.logsMain o.logsHandler sid envid).containerMade
      <;> simp [hc] at h1
  · exfalso
    by_cases hc : (runBody o.clientInit o.download o.create o.inject o.startC
        o.waitC o.logsMain o.logsHandler sid envid).clientMade
      <;> simp [hc] at h1

/-! ### Claim theorems -/

/-- C4: for every raw output containing at least one non-blank line that
    starts with a left brace, ends with a right brace and parses, the
    extractor returns the parse of the last such successfully-parsing
    line of the stream (the backward scan stops at its first success),
    blank lines ignored. -/
theorem C4_last_parsing_line_wins (loads : List Char → Option Json)
    (logs l : List Char) (j : Json)
    (hlast : ((pyLines logs).filter (lineHit loads)).getLast? = some l)
    (hl : loads l = some j) :
    parseEvalOutputWith loads logs = j := by
  have hne : pyLines logs ≠ [] := by
    intro hc
    rw [hc] at hlast
    simp at hlast
  have hlinesne : (pyLines logs).isEmpty = false := by
    cases hp : pyLines logs with
    | nil => exact absurd hp hne
    | cons a as => simp
  have hs : scanBack loads (pyLines logs).reverse = some j := by
    rw [scanBack_eq, List.filter_reverse, List.head?_reverse, hlast]
    simpa using hl
  simp [parseEvalOutputWith, hlinesne, hs]

/-- C4 witness: with two score lines in the stream, the later one wins. -/
theorem C4_witness :
    parse_evaluation_output "diag\n\x7b\"score\": 1\x7d\n\x7b\"score\": 2\x7d".toList
      = Json.obj [(scoreKey, Json.num 2)] :=
  C4_last_parsing_line_wins jsonLoads
    "diag\n\x7b\"score\": 1\x7d\n\x7b\"score\": 2\x7d".toList
    "\x7b\"score\": 2\x7d".toList (Json.obj [(scoreKey, Json.num 2)])
    (by rfl) (by rfl)

/-- C5: when no single line is a brace-delimited parsing line, the
    extractor slices from the last left brace to the last right brace of
    the whole output and returns the parse of that slice whenever the
    indices are properly ordered and the slice parses. -/
theorem C5_fallback_slice (loads : List Char → Option Json) (logs : List Char)
    (s e : Nat) (j : Json)
    (hnone : ∀ l ∈ pyLines logs, lineHit loads l = false)
    (hs : rfindIdx '\x7b' logs = some s)
    (he : rfindIdx '\x7d' logs = some e)
    (hlt : s < e)
    (hj : loads (sliceIncl logs s e) = some j) :
    parseEvalOutputWith loads logs = j := by
  have hbrace : '\x7b' ∈ logs := rfindIdx_mem _ logs s hs
  have hne : pyLines logs ≠ [] := pyLines_ne_nil logs '\x7b' hbrace (by rfl)
  have hlinesne : (pyLines logs).isEmpty = false := by
    cases hp : pyLines logs with
    | nil => exact absurd hp hne
    | cons a as => simp
  have hfil : (pyLines logs).filter (lineHit loads) = [] :=
    List.filter_eq_nil_iff.mpr (fun a ha => by simp [hnone a ha])
  have hscan : scanBack loads (pyLines logs).reverse = none := by
    rw [scanBack_eq, List.filter_reverse, hfil]
    simp
  simp only [parseEvalOutputWith, hlinesne, Bool.false_eq_true, if_false, hscan]
  unfold fallbackParse
  rw [hs, he]
  simp [hlt, hj]

/-- C5 witness: a record split over two lines is recovered by the
    whole-log slice fallback. -/
theorem C5_witness :
    parse_evaluation_output "\x7b\"score\":\n3\x7d".toList
      = Json.obj [(scoreKey, Json.num 3)] :=
  C5_fallback_slice jsonLoads "\x7b\"score\":\n3\x7d".toList 0 11
    (Json.obj [(scoreKey, Json.num 3)])
    (by decide) (by rfl) (by rfl) (by decide) (by rfl)

/-- C6 counterexample: the claim quantifies over every raw output from
    which nothing parses, but the empty output is such an output and it
    yields the distinct no-output record, whose error message is not the
    claimed literal and which carries no diagnostic tail. -/
theorem C6_counterexample :
    parse_evaluation_output []
      = Json.obj [(errKey, Json.str "No output received".toList)]
    ∧ "No output received".toList ≠ "No JSON result found in logs".toList :=
  ⟨rfl, by decide⟩

/-- C6 (amended): for every raw output containing at least one
    non-whitespace character, from which neither the backward line scan
    nor the slice fallback yields a parse, the extractor returns the
    failure record with the exact message and the final 500 bytes of the
    raw output as a non-empty diagnostic tail. -/
theorem C6_no_json_record (loads : List Char → Option Json) (logs : List Char)
    (c : Char) (hc : c ∈ logs) (hcsp : isPySpace c = false)
    (hnone : ∀ l ∈ pyLines logs, lineHit loads l = false)
    (hfb : ∀ s e : Nat, rfindIdx '\x7b' logs = some s →
      rfindIdx '\x7d' logs = some e → s < e →
      loads (sliceIncl logs s e) = none) :
    parseEvalOutputWith loads logs
      = Json.obj [(errKey, Json.str "No JSON result found in logs".toList),
                  (rawKey, Json.str (lastN 500 logs))]
    ∧ lastN 500 logs ≠ [] := by
  constructor
  · have hne : pyLines logs ≠ [] := pyLines_ne_nil logs c hc hcsp
    have hlinesne : (pyLines logs).isEmpty = false := by
      cases hp : pyLines logs with
      | nil => exact absurd hp hne
      | cons a as => simp
    have hfil : (pyLines logs).filter (lineHit loads) = [] :=
      List.filter_eq_nil_iff.mpr (fun a ha => by simp [hnone a ha])
    have hscan : scanBack loads (pyLines logs).reverse = none := by
      rw [scanBack_eq, List.filter_reverse, hfil]
      simp
    simp only [parseEvalOutputWith, hlinesne, Bool.false_eq_true, if_false, hscan]
    unfold fallbackParse
    cases hs : rfindIdx '\x7b' logs with
    | none => simp [noJsonRecord]
    | some s =>
      cases he : rfindIdx '\x7d' logs with
      | none => simp [noJsonRecord]
      | some e =>
        by_cases hlt : s < e
        · simp [hlt, hfb s e hs he hlt, noJsonRecord]
        · simp [hlt, noJsonRecord]
  · exact lastN_ne_nil 500 logs (by decide) (List.ne_nil_of_mem hc)

/-- C6 witness: brace-free non-empty output gets the no-JSON record with
    a non-empty tail. -/
theorem C6_witness :
    parse_evaluation_output "no json here".toList
      = Json.obj [(errKey, Json.str "No JSON result found in logs".toList),
                  (rawKey, Json.str (lastN 500 "no json here".toList))]
    ∧ lastN 500 "no json here".toList ≠ [] :=
  C6_no_json_record jsonLoads "no json here".toList 'n'
    (by decide) (by rfl) (by decide)
    (fun s e hs he hlt => by
      have : rfindIdx '\x7b' "no json here".toList = none := by rfl
      rw [this] at hs
      exact absurd hs (by simp))

/-- C10: an empty or fully-whitespace raw output yields the distinct
    no-output failure record, a single error member with no raw_output
    tail, rather than the generic no-JSON record. -/
theorem C10_no_output_record (loads : List Char → Option Json) (logs : List Char)
    (h : ∀ c ∈ logs, isPySpace c = true) :
    parseEvalOutputWith loads logs
      = Json.obj [(errKey, Json.str "No output received".toList)] := by
  have hnil := pyLines_eq_nil logs h
  simp [parseEvalOutputWith, hnil, noOutputRecord]

/-- C10 witness: a whitespace-only output gets the no-output record. -/
theorem C10_witness :
    parse_evaluation_output " \n\t ".toList
      = Json.obj [(errKey, Json.str "No output received".toList)] :=
  C10_no_output_record jsonLoads " \n\t ".toList (by decide)

/-- C1 counterexample: with a backend on which every call succeeds but
    the client close raises during cleanup, a container is created during
    the call yet the cleanup error escapes and replaces the primary
    result, so cleanup errors are not all swallowed. -/
theorem C1_counterexample :
    SEvent.containerCreated (mkConfig "sub-1".toList "env-1".toList)
      ∈ (run_evaluation_container closeFailOracle "sub-1".toList "env-1".toList).snd
    ∧ (run_evaluation_container closeFailOracle "sub-1".toList "env-1".toList).fst
      = Except.error (PyExc.exc "boom".toList) :=
  ⟨by decide, rfl⟩

/-- C1 (amended): on every outcome, if a container was created it is
    stopped and force-removed and the client handle close is invoked
    before the function returns; errors of the container stop and remove
    calls are swallowed and never alter the result or the trace; but an
    error raised by the client close itself escapes — only when the close
    succeeds is the primary result returned unchanged. -/
theorem C1_cleanup_invariant :
    (∀ (o : SandboxOracle) (sid envid : List Char) (cfg : ContainerConfig),
      SEvent.containerCreated cfg ∈ (run_evaluation_container o sid envid).snd →
        SEvent.stopped ∈ (run_evaluation_container o sid envid).snd
        ∧ SEvent.removedForce ∈ (run_evaluation_container o sid envid).snd
        ∧ SEvent.clientClosed ∈ (run_evaluation_container o sid envid).snd)
    ∧ (∀ (o : SandboxOracle) (sid envid : List Char) (x y : Except PyExc Unit),
        run_evaluation_container { o with stopC := x, removeC := y } sid envid
          = run_evaluation_container o sid envid)
    ∧ (∀ (o : SandboxOracle) (sid envid : List Char),
        o.closeC = .ok () →
          (run_evaluation_container o sid envid).fst
            = .ok (runBody o.clientInit o.download o.create o.inject o.startC
                o.waitC o.logsMain o.logsHandler sid envid).resp) := by
  refine ⟨?_, ?_, ?_⟩
  · intro o sid envid cfg h
    have hb := run_snd_create o sid envid cfg h
    have hfl := runBody_create o.clientInit o.download o.create o.inject o.startC
      o.waitC o.logsMain o.logsHandler sid envid cfg hb
    refine ⟨?_, ?_, ?_⟩ <;>
      simp [run_evaluation_container, hfl.1, hfl.2.1]
  · intro o sid envid x y
    rfl
  · intro o sid envid h
    exact run_fst_of_close_ok o sid envid h

/-- C1 witness: on a concrete run that creates a container, the trace
    ends with stop, forced remove and client close, and with a succeeding
    close the body response is returned unchanged. -/
theorem C1_witness :
    (SEvent.stopped
        ∈ (run_evaluation_container sampleOracle "sub-w".toList "env-w".toList).snd
      ∧ SEvent.removedForce
        ∈ (run_evaluation_container sampleOracle "sub-w".toList "env-w".toList).snd
      ∧ SEvent.clientClosed
        ∈ (run_evaluation_container sampleOracle "sub-w".toList "env-w".toList).snd)
    ∧ (run_evaluation_container sampleOracle "sub-w".toList "env-w".toList).fst
      = .ok (runBody sampleOracle.clientInit sampleOracle.download
          sampleOracle.create sampleOracle.inject sampleOracle.startC
          sampleOracle.waitC sampleOracle.logsMain sampleOracle.logsHandler
          "sub-w".toList "env-w".toList).resp :=
  ⟨C1_cleanup_invariant.1 sampleOracle "sub-w".toList "env-w".toList
      (mkConfig "sub-w".toList "env-w".toList) (by decide),
   C1_cleanup_invariant.2.2 sampleOracle "sub-w".toList "env-w".toList rfl⟩

/-- C2 counterexample: an exception raised by the client close during
    cleanup escapes run_evaluation_container instead of being converted
    into a returned value, so not every failure mode is non-throwing. -/
theorem C2_counterexample :
    (run_evaluation_container escapeOracle "sub-2".toList "env-2".toList).fst
      = Except.error (PyExc.exc "crash".toList) := rfl

/-- C2 (amended): for every input and every backend behaviour in which
    the final client-handle close does not itself raise, the call returns
    a result-shaped value rather than raising, and whenever that value
    omits an error explanation the run was a clean exit (so every failure
    mode carries an error explanation). -/
theorem C2_total_result (o : SandboxOracle) (sid envid : List Char)
    (h : o.closeC = .ok ()) :
    ∃ r : Response, (run_evaluation_container o sid envid).fst = .ok r
      ∧ (r.error = none → r.status = some 0) := by
  refine ⟨_, run_fst_of_close_ok o sid envid h, ?_⟩
  intro he
  exact runBody_error_none o.clientInit o.download o.create o.inject o.startC
    o.waitC o.logsMain o.logsHandler sid envid he

/-- C2 witness: the well-behaved concrete backend yields a returned
    result value. -/
theorem C2_witness :
    ∃ r : Response,
      (run_evaluation_container sampleOracle "sub-x".toList "env-x".toList).fst
        = .ok r ∧ (r.error = none → r.status = some 0) :=
  C2_total_result sampleOracle "sub-x".toList "env-x".toList rfl

/-- C7: a blank (empty or whitespace-only) env_id is rejected before any
    backend call: the call returns the stage-init configuration error and
    the trace is empty, so no client connection and no container is ever
    created for that call. -/
theorem C7_blank_env_rejected (o : SandboxOracle) (sid envid : List Char)
    (h : (pyStrip envid).isEmpty = true) :
    run_evaluation_container o sid envid = (.ok initFailResponse, []) := by
  unfold run_evaluation_container runBody
  rw [if_pos h]
  simp [handlerResponse, initFailResponse, lastN]

/-- C7 witness: a three-space env_id is rejected with the init failure
    and an empty trace. -/
theorem C7_witness :
    run_evaluation_container sampleOracle "sub-7".toList "   ".toList
      = (.ok initFailResponse, []) :=
  C7_blank_env_rejected sampleOracle "sub-7".toList "   ".toList (by rfl)

/-- C8: every container creation recorded in any trace of the executor
    uses exactly the fixed limits — no network, 512m memory, pids 50,
    cpu_quota 50000, no-new-privileges, all capabilities dropped — for
    every submission_id, env_id and backend behaviour, so no limit
    derives from caller input. -/
theorem C8_fixed_limits (o : SandboxOracle) (sid envid : List Char)
    (cfg : ContainerConfig)
    (h : SEvent.containerCreated cfg ∈ (run_evaluation_container o sid envid).snd) :
    cfg.limits
      = { networkMode := "none".toList
          memLimit := "512m".toList
          pidsLimit := 50
          cpuQuota := 50000
          securityOpt := ["no-new-privileges".toList]
          capDrop := ["ALL".toList] } := by
  have hb := run_snd_create o sid envid cfg h
  have hfl := runBody_create o.clientInit o.download o.create o.inject o.startC
    o.waitC o.logsMain o.logsHandler sid envid cfg hb
  rw [hfl.2.2]
  rfl

/-- C8 witness: the configuration of the concrete run carries the fixed
    limits. -/
theorem C8_witness :
    (mkConfig "sub-8".toList "env-8".toList).limits
      = { networkMode := "none".toList
          memLimit := "512m".toList
          pidsLimit := 50
          cpuQuota := 50000
          securityOpt := ["no-new-privileges".toList]
          capDrop := ["ALL".toList] } :=
  C8_fixed_limits sampleOracle "sub-8".toList "env-8".toList
    (mkConfig "sub-8".toList "env-8".toList) (by decide)

/-- C3 counterexample: an exit code 0 run whose final record carries a
    non-numeric score value is classified successful by the pipeline,
    although the parsed record contains no numeric score field. -/
theorem C3_counterexample :
    is_success (respOf
        (run_evaluation_container strScoreOracle "sub-3".toList "env-3".toList).fst)
      = true
    ∧ scoreFieldOf (respOf
        (run_evaluation_container strScoreOracle "sub-3".toList "env-3".toList).fst)
      = some (Json.str "oops".toList)
    ∧ jsonIsNum (Json.str "oops".toList) = false :=
  ⟨rfl, rfl, rfl⟩

/-- C3 (amended): a run is classified successful exactly when the exit
    code is zero and the parsed record is a dict containing a score key,
    whatever the type of its value; nonzero exit, non-dict output, or a
    missing score key each force failure. -/
theorem C3_classification (ec : Int) (lgs : List Char) (parsed : Json) :
    is_success (buildResponse ec lgs parsed) = true
      ↔ (ec = 0 ∧ hasScoreKey parsed = true) := by
  by_cases hec : ec = 0 <;>
    cases hsk : hasScoreKey parsed <;>
      cases parsed <;>
        simp_all [is_success, buildResponse, parsedOutputOf, hasScoreKey]

/-- C3 witness: exit code 0 with a numeric score 5 classifies as
    success. -/
theorem C3_witness :
    is_success (buildResponse 0 [] (Json.obj [(scoreKey, Json.num 5)])) = true :=
  (C3_classification 0 [] (Json.obj [(scoreKey, Json.num 5)])).mpr ⟨rfl, rfl⟩

/-- C9 counterexample: two files, none of them a python file, and no
    entry point: the request is rejected, but with the no_py reason, not
    missing_main, so the claim does not hold for every such request. -/
theorem C9_counterexample :
    submitValidate false ["a.txt".toList, "b.txt".toList] none
      = .error VReason.no_py
    ∧ VReason.no_py ≠ VReason.missing_main :=
  ⟨rfl, by decide⟩

/-- C9 (amended): a staging request with more than one file, all file
    names non-empty, at least one python file among them, and no entry
    point is rejected with the missing_main validation error; requests
    failing the earlier filename checks are rejected even earlier, with
    empty_filename or no_py, still before any artifact is stored. -/
theorem C9_missing_main (hasSingle : Bool) (names : List (List Char))
    (hlen : 1 < names.length)
    (hne : ∀ f ∈ names, f.isEmpty = false)
    (hpy : (names.map basename).any endsPy = true) :
    submitValidate hasSingle names none = .error VReason.missing_main := by
  have hnz : names ≠ [] := by
    intro hc
    rw [hc] at hlen
    simp at hlen
  have hempty : names.isEmpty = false := by
    cases hp : names with
    | nil => exact absurd hp hnz
    | cons a as => simp
  have hany : names.any (fun f => f.isEmpty) = false := by
    rw [List.any_eq_false]
    intro f hf
    simp [hne f hf]
  unfold submitValidate submitMultiValidate
  simp [hempty, hany, hpy, Except.map]

/-- C9 witness: two python files without an entry point are rejected
    with missing_main. -/
theorem C9_witness :
    submitValidate false ["a.py".toList, "b.py".toList] none
      = .error VReason.missing_main :=
  C9_missing_main false ["a.py".toList, "b.py".toList]
    (by decide) (by decide) (by decide)
